import Mathlib

/-!
Verification development for the datalad-metalad metadata core
(`dump.py`, `extract.py`, `extractors/custom_dataset.py`,
`extractors/runprov.py`).

Python dictionaries are embedded as insertion-ordered association
lists (`List (String × _)`): setting an existing key replaces its
value in place, setting a fresh key appends it at the end, and
iteration follows this order, exactly as in CPython.  JSON values are
embedded by the inductive type `JSON`.
-/

set_option autoImplicit false

namespace Metalad

/-- A JSON value, as produced and consumed by the metadata commands. -/
inductive JSON where
  | s : String → JSON
  | n : Int → JSON
  | b : Bool → JSON
  | null : JSON
  | arr : List JSON → JSON
  | obj : List (String × JSON) → JSON

/-- Key lookup in an insertion-ordered association list (first hit wins,
as for a Python dictionary, whose keys are unique). -/
def alookup {β : Type} (k : String) : List (String × β) → Option β
  | [] => none
  | (k', v) :: rest => if k' = k then some v else alookup k rest

/-- Setting a key in an insertion-ordered association list: an existing
key keeps its position and gets the new value, a fresh key is appended.
This is the behaviour of `d[k] = v` on a Python dictionary (keys are
unique, so replacing the first occurrence replaces the only one). -/
def aset {β : Type} (d : List (String × β)) (k : String) (v : β) : List (String × β) :=
  match d with
  | [] => [(k, v)]
  | (k', v') :: rest => if k' = k then (k, v) :: rest else (k', v') :: aset rest k v

/-- Python's `d.update(m)`: set every key of `m` in `d`, in `m`'s order. -/
def dictUpdate {β : Type} (d m : List (String × β)) : List (String × β) :=
  m.foldl (fun acc p => aset acc p.1 p.2) d

@[simp] theorem alookup_nil {β : Type} (k : String) : alookup (β := β) k [] = none := rfl

@[simp] theorem alookup_cons {β : Type} (k k' : String) (v : β) (l : List (String × β)) :
    alookup k ((k', v) :: l) = if k' = k then some v else alookup k l := rfl

theorem alookup_append {β : Type} (k : String) (l₁ l₂ : List (String × β)) :
    alookup k (l₁ ++ l₂) = (alookup k l₁).orElse (fun _ => alookup k l₂) := by
  induction l₁ with
  | nil => simp [alookup]
  | cons p rest ih =>
    rcases p with ⟨k', v⟩
    by_cases h : k' = k <;> simp [alookup, h, ih, Option.orElse]

theorem alookup_aset_self {β : Type} (d : List (String × β)) (k : String) (v : β) :
    alookup k (aset d k v) = some v := by
  induction d with
  | nil => simp [aset, alookup]
  | cons p rest ih =>
    rcases p with ⟨k', v'⟩
    by_cases h : k' = k <;> simp [aset, alookup, h, ih]

theorem alookup_aset_ne {β : Type} (d : List (String × β)) (k k' : String) (v : β)
    (h : k' ≠ k) : alookup k (aset d k' v) = alookup k d := by
  induction d with
  | nil => simp [aset, alookup, h]
  | cons p rest ih =>
    rcases p with ⟨k₀, v₀⟩
    by_cases h₀ : k₀ = k'
    · subst h₀
      simp [aset, alookup, h]
    · by_cases hk : k₀ = k <;> simp [aset, alookup, h₀, hk, ih, Ne.symm h]

/-!
The versioned metadata data model.  The entity classes
(`ExtractorConfiguration`, `MetadataInstance`, `Metadata`,
`TreeVersionList`, the trees and the `Connector`) live in the
`dataladmetadatamodel` package, outside the visible sources; they are
modelled here from the specification (and, where the specification is
silent or contradicted, from the behaviour documented in the visible
callers).
-/

/-- Modelled from the spec: `ExtractorConfiguration` (the
`dataladmetadatamodel` class is not among the sources) pairs the
extractor version with the extractor parameters.  The parameters are a
string-to-string dictionary, matching the `Dict[str, str]` type of
`extractor_arguments` in `extract.py`. -/
structure ExtractorConfiguration where
  version : String
  parameter : List (String × String)
deriving DecidableEq, Repr

/-- Modelled from the spec: a metadata content source is either an
inline JSON value (`ImmediateMetadataSource`) or a reference to a
content-addressed git object (`LocalGitMetadataSource`), as used in
`extract.py`.  DIRECTORY-category output has no source representation. -/
inductive MetadataSource where
  | immediate : JSON → MetadataSource
  | localGit : String → String → MetadataSource

/-- Modelled from the spec: one recorded extractor run
(`MetadataInstance`): timestamp, agent, configuration and the location
of the extracted content. -/
structure MetadataInstance where
  time_stamp : Nat
  author_name : String
  author_email : String
  configuration : ExtractorConfiguration
  metadata_location : MetadataSource

/-- Modelled from the spec and from the `Extract` docstring in
`extract.py`: the set of instances recorded for one extractor is keyed
by extractor configuration.  Adding an instance whose configuration is
already present overwrites the stored instance for that configuration
("If the same extractor is executed on the same element ... with the
same configuration, any existing results will be overwritten"); a new
configuration is appended at the end. -/
def addMetadataInstance (l : List MetadataInstance) (i : MetadataInstance) :
    List MetadataInstance :=
  match l with
  | [] => [i]
  | j :: rest =>
    if j.configuration = i.configuration then i :: rest
    else j :: addMetadataInstance rest i

/-- Modelled from the spec: `Metadata` maps each extractor name to its
recorded instances, in insertion order. -/
abbrev Metadata : Type := List (String × List MetadataInstance)

/-- The extractor-runs view used by the dump pipeline
(`metadata.extractor_runs()`): every `(extractor_name, instances)`
pair, in insertion order. -/
def Metadata.extractor_runs (m : Metadata) : List (String × List MetadataInstance) := m

/-- The instances recorded for one extractor name (empty when the
extractor never ran). -/
def Metadata.instancesFor (m : Metadata) (name : String) : List MetadataInstance :=
  (alookup name m).getD []

/-- Modelled from the spec: `Metadata.add_extractor_run` builds a
`MetadataInstance` from the run parameters and adds it to the instance
set of `extractor_name` (creating the entry when absent). -/
def Metadata.add_extractor_run (m : Metadata) (time_stamp : Nat)
    (extractor_name author_name author_email : String)
    (configuration : ExtractorConfiguration) (source : MetadataSource) : Metadata :=
  let instance_record : MetadataInstance :=
    ⟨time_stamp, author_name, author_email, configuration, source⟩
  aset m extractor_name
    (addMetadataInstance (m.instancesFor extractor_name) instance_record)

/-- Modelled from the spec: a `Connector` wraps a reference into the
backing store and owns at most one cached in-memory object.  The
persisted object is carried explicitly (`stored`), the cache is the
load state: `none` is *unloaded*, `some` is *loaded*. -/
structure Connector (α : Type) where
  stored : α
  cache : Option α

/-- Modelled from the spec: `load` is idempotent while loaded (it
returns the cached instance); from the unloaded state it fetches the
persisted object and caches it. -/
def Connector.load_object {α : Type} (c : Connector α) : Connector α × α :=
  match c.cache with
  | some v => (c, v)
  | none => ({ c with cache := some c.stored }, c.stored)

/-- Modelled from the spec: `purge` discards the cache and returns the
connector to the unloaded state; persisted data is untouched. -/
def Connector.purge {α : Type} (c : Connector α) : Connector α :=
  { c with cache := none }

/-- Modelled from the spec: the trees are tries keyed by POSIX path
segments; each node may carry a value (a metadata root record for
dataset trees, a metadata connector for file trees) and has named
child nodes. -/
inductive PTree (α : Type) where
  | node : Option α → List (String × PTree α) → PTree α

def PTree.value {α : Type} : PTree α → Option α
  | .node v _ => v

def PTree.children {α : Type} : PTree α → List (String × PTree α)
  | .node _ cs => cs

/-- A match produced by the tree search: the fully qualified pattern
path and the matched node. -/
structure MatchRecord (α : Type) where
  path : String
  node : PTree α

/-- Splitting a character list at `/`, accumulating the current
segment (the structural core of `splitPattern`). -/
def splitOnSlash (cs : List Char) (cur : String) : List String :=
  match cs with
  | [] => [cur]
  | c :: rest =>
    if c = '/' then cur :: splitOnSlash rest ""
    else splitOnSlash rest (cur.push c)

/-- Split a pattern into path segments; the empty pattern denotes the
root and has no segments. -/
def splitPattern (p : String) : List String :=
  if p = "" then [] else splitOnSlash p.data ""

/-- Extend a qualified path by one segment. -/
def joinPath (pfx seg : String) : String :=
  if pfx = "" then seg else pfx ++ "/" ++ seg

/-- Modelled from the spec: segment-by-segment pattern resolution of
the Tree Search Engine (`pathutils/treesearch.py` is not among the
sources).  Each segment must exactly match one child name; failure at
any segment fails the whole pattern. -/
def resolveSegments {α : Type} : PTree α → List String → Option (PTree α)
  | t, [] => some t
  | t, seg :: rest =>
    match alookup seg t.children with
    | some child => resolveSegments child rest
    | none => none

/-- Modelled from the spec: recursive expansion of a matched node —
every node of the subtree that carries a record, with its fully
qualified path, in pre-order. -/
def collectSubtree {α : Type} : PTree α → String → List (MatchRecord α)
  | .node v cs, pfx =>
    (match v with
     | some _ => [⟨pfx, .node v cs⟩]
     | none => []) ++
    (cs.attach.map (fun p => collectSubtree p.1.2 (joinPath pfx p.1.1))).flatten
termination_by t _ => sizeOf t
decreasing_by
  simp_wf
  have hm := List.sizeOf_lt_of_mem p.2
  rcases p with ⟨⟨n, c⟩, hp⟩
  simp at hm ⊢
  omega

/-- Modelled from the spec: resolve one pattern and produce its
matches.  `auto_list_root` lists the direct children of the root when
the pattern is empty (regardless of `recursive`); a recursive match
expands to the record-bearing subtree; otherwise the resolved node is
the single match. -/
def matchesFor {α : Type} (t : PTree α) (pattern : String)
    (recursive auto_list_root : Bool) : Option (List (MatchRecord α)) :=
  (resolveSegments t (splitPattern pattern)).map (fun n =>
    if auto_list_root ∧ pattern = "" then
      n.children.map (fun p => ⟨p.1, p.2⟩)
    else if recursive then
      collectSubtree n pattern
    else
      [⟨pattern, n⟩])

/-- Modelled from the spec: `TreeSearch.get_matching_paths` — resolve
each pattern in order; a pattern that resolves contributes its
matches, a pattern that does not is appended verbatim to the not-found
list (no partial or ancestor match is substituted). -/
def get_matching_paths {α : Type} (t : PTree α) (patterns : List String)
    (recursive auto_list_root : Bool) :
    List (MatchRecord α) × List String :=
  patterns.foldl
    (fun acc pattern =>
      match matchesFor t pattern recursive auto_list_root with
      | some ms => (acc.1 ++ ms, acc.2)
      | none => (acc.1, acc.2 ++ [pattern]))
    ([], [])

/-- Per-file metadata tree: leaf values are lazy handles (connectors)
to per-file `Metadata`. -/
abbrev FileTree : Type := PTree (Connector Metadata)

/-- Modelled from the spec: `MetadataRootRecord` — one per dataset-tree
node; dataset identity and version plus lazy handles to the
dataset-level metadata and the file tree. -/
structure MetadataRootRecord where
  dataset_identifier : String
  dataset_version : String
  dataset_level_metadata : Connector Metadata
  file_tree : Connector FileTree

/-- The dataset tree: a trie whose nodes may hold a metadata root
record. -/
abbrev DatasetTree : Type := PTree MetadataRootRecord

/-- Modelled from the spec: `DatasetTree.get_metadata_root_record` —
the record held at a tree position, when the position exists and
carries one. -/
def DatasetTree.get_metadata_root_record (t : DatasetTree) (path : String) :
    Option MetadataRootRecord :=
  (resolveSegments t (splitPattern path)).bind PTree.value

/-- Modelled from the spec: `TreeVersionList` is an append-only ordered
mapping from a version identifier to `(timestamp, DatasetTree)`;
ordering reflects recording time, so the head of the list is the
earliest recorded version and the last element is the most recent. -/
abbrev TreeVersionList : Type := List (String × Nat × DatasetTree)

/-- Modelled from the spec: `versions()` enumerates the version
identifiers in recording order. -/
def TreeVersionList.versions (tvl : TreeVersionList) : List String :=
  tvl.map (fun p => p.1)

/-- Modelled from the spec: `get_dataset_tree` fetches the timestamp
and dataset tree recorded for a version identifier. -/
def TreeVersionList.get_dataset_tree (tvl : TreeVersionList) (version : String) :
    Option (Nat × DatasetTree) :=
  alookup version tvl

/-- Modelled from the spec: recording a new version appends it at the
end of the append-only list. -/
def TreeVersionList.recordVersion (tvl : TreeVersionList) (version : String)
    (time_stamp : Nat) (tree : DatasetTree) : TreeVersionList :=
  tvl ++ [(version, time_stamp, tree)]

/-- Modelled from the spec: the most recent version is the one recorded
last.  This definition follows the specification's words ("most-recent
... when no version is requested") and is compared against the
resolution the dump code actually performs. -/
def TreeVersionList.mostRecentVersion (tvl : TreeVersionList) : Option String :=
  tvl.versions.getLast?

/-!
The query (dump) pipeline, from `dump.py`.
-/

/-- `ReportOn` from `dump.py`: report scope filter. -/
inductive ReportOn where
  | FILES
  | DATASETS
  | ALL
deriving DecidableEq

/-- `ReportPolicy` from `dump.py`. -/
inductive ReportPolicy where
  | INDIVIDUAL
  | COMPLETE
deriving DecidableEq

/-- `TreeMetadataPath` from the address grammar: dataset path, an
optional version (`none` is the distinct "unspecified" state) and the
file-local path. -/
structure TreeMetadataPath where
  dataset_path : String
  version : Option String
  local_path : String

/-- JSON rendering of a metadata source, standing for the serialized
`MetadataSource` object placed into the result dictionary. -/
def mdSourceJSON : MetadataSource → JSON
  | .immediate d => JSON.obj [("type", JSON.s "immediate"), ("content", d)]
  | .localGit repo objid =>
      JSON.obj [("type", JSON.s "local-git-object"),
                ("git_repository_path", JSON.s repo),
                ("object_id", JSON.s objid)]

/-- `_create_result_record` from `dump.py`: the fixed outer shape of
every query result record. -/
def _create_result_record (mapper realm : String) (metadata_record : JSON)
    (report_type : String) : JSON :=
  JSON.obj
    [("status", JSON.s "ok"),
     ("action", JSON.s "meta_dump"),
     ("source", JSON.obj [("mapper", JSON.s mapper), ("realm", JSON.s realm)]),
     ("type", JSON.s report_type),
     ("metadata", metadata_record)]

/-- `_create_metadata_instance_record` from `dump.py`: the per-instance
mapping nested in a result record. -/
def _create_metadata_instance_record (i : MetadataInstance) : JSON :=
  JSON.obj
    [("extraction_time", JSON.n (Int.ofNat i.time_stamp)),
     ("extraction_agent", JSON.s (i.author_name ++ " <" ++ i.author_email ++ ">")),
     ("extractor_version", JSON.s i.configuration.version),
     ("extractor_parameter",
        JSON.obj (i.configuration.parameter.map (fun p => (p.1, JSON.s p.2)))),
     ("extractor_result", mdSourceJSON i.metadata_location)]

/-- The identity fields of the `dataset_level_metadata` object built in
`show_dataset_metadata`. -/
def datasetIdentityFields (root_dataset_identifier root_dataset_version
    dataset_identifier dataset_version dataset_path : String) :
    List (String × JSON) :=
  [("root_dataset_identifier", JSON.s root_dataset_identifier),
   ("root_dataset_version", JSON.s root_dataset_version),
   ("dataset_identifier", JSON.s dataset_identifier),
   ("dataset_version", JSON.s dataset_version),
   ("dataset_path", JSON.s dataset_path)]

/-- `show_dataset_metadata` from `dump.py`: load the node's
dataset-level metadata, emit one result record per `(extractor_name,
instances)` pair — the record holds the whole instance list of that
extractor — and purge the dataset-level metadata connector afterwards.
Returns the emitted records and the node's record with its updated
connector state. -/
def show_dataset_metadata (mapper realm : String)
    (root_dataset_identifier root_dataset_version dataset_path : String)
    (mrr : MetadataRootRecord) : List JSON × MetadataRootRecord :=
  let loaded := mrr.dataset_level_metadata.load_object
  let dataset_level_metadata := loaded.2
  let records := dataset_level_metadata.extractor_runs.map (fun run =>
    _create_result_record mapper realm
      (JSON.obj
        [("dataset_level_metadata",
          JSON.obj
            (datasetIdentityFields root_dataset_identifier root_dataset_version
              mrr.dataset_identifier mrr.dataset_version dataset_path ++
             [("metadata",
               JSON.obj [(run.1, JSON.arr (run.2.map _create_metadata_instance_record))])]))])
      "dataset")
  (records, { mrr with dataset_level_metadata := loaded.1.purge })

/-- The records produced for one matched file node in
`show_file_tree_metadata`: one result record per `(extractor_name,
instances)` pair of the per-file metadata; file nodes with no metadata
connector contribute nothing ("ignore empty datasets"). -/
def fileMatchRecords (mapper realm : String)
    (root_dataset_identifier root_dataset_version dataset_path : String)
    (m : MatchRecord (Connector Metadata)) : List JSON :=
  match m.node.value with
  | none => []
  | some metadata_connector =>
    let metadata := metadata_connector.load_object.2
    metadata.extractor_runs.map (fun run =>
      _create_result_record mapper realm
        (JSON.obj
          [("file_level_metadata",
            JSON.obj
              [("root_dataset_identifier", JSON.s root_dataset_identifier),
               ("root_dataset_version", JSON.s root_dataset_version),
               ("dataset_path", JSON.s dataset_path),
               ("file_path", JSON.s m.path),
               ("metadata",
                 JSON.obj [(run.1, JSON.arr (run.2.map _create_metadata_instance_record))])])])
        "file")

/-- `show_file_tree_metadata` from `dump.py`: load the node's file
tree, search it with the file pattern, emit the records of every
matched file node and purge the file-tree connector afterwards.
Returns the emitted records, the not-found file patterns (reported as
warnings) and the node's record with its updated connector state. -/
def show_file_tree_metadata (mapper realm : String)
    (root_dataset_identifier root_dataset_version dataset_path : String)
    (mrr : MetadataRootRecord) (file_pattern : String) (recursive : Bool) :
    List JSON × List String × MetadataRootRecord :=
  let loaded := mrr.file_tree.load_object
  let file_tree := loaded.2
  let search := get_matching_paths file_tree [file_pattern] recursive false
  let records := (search.1.map
    (fileMatchRecords mapper realm root_dataset_identifier
      root_dataset_version dataset_path)).flatten
  (records, search.2, { mrr with file_tree := loaded.1.purge })

/-- The version the dump pipeline resolves a `TreeMetadataPath` to
(`dump.py`, `dump_from_dataset_tree`): the explicitly requested
version when one is given, otherwise the first element of
`tree_version_list.versions()`. -/
def resolvedVersion (tvl : TreeVersionList) (requested : Option String) :
    Option String :=
  match requested with
  | some v => some v
  | none => tvl.versions.head?

/-- The records produced for one matched dataset node in
`dump_from_dataset_tree`, according to the report scope.  A matched
node without a metadata root record contributes nothing (the source
assumes every processed match carries one). -/
def matchRecords (mapper realm : String)
    (root_dataset_identifier root_dataset_version : String)
    (report_on : ReportOn) (local_path : String) (recursive : Bool)
    (m : MatchRecord MetadataRootRecord) : List JSON :=
  match m.node.value with
  | none => []
  | some mrr =>
    (if report_on = ReportOn.DATASETS ∨ report_on = ReportOn.ALL then
      (show_dataset_metadata mapper realm root_dataset_identifier
        root_dataset_version m.path mrr).1
     else []) ++
    (if report_on = ReportOn.FILES ∨ report_on = ReportOn.ALL then
      (show_file_tree_metadata mapper realm root_dataset_identifier
        root_dataset_version m.path mrr local_path recursive).1
     else [])

/-- `dump_from_dataset_tree` from `dump.py`: resolve the target
version (requested, or the first of the version list when
unspecified), fetch that version's dataset tree, read the root
metadata root record, search for the dataset-path pattern, and emit
the records of every match according to the report scope.  The
not-found patterns of the dataset search are returned alongside the
records (the source logs them as warnings).  `none` models the
abnormal terminations of the source (missing version, missing root
record, a report policy other than INDIVIDUAL). -/
def dump_from_dataset_tree (mapper realm : String) (tvl : TreeVersionList)
    (path : TreeMetadataPath) (report_on : ReportOn)
    (report_policy : ReportPolicy) (recursive : Bool) :
    Option (List JSON × List String) :=
  if report_policy ≠ ReportPolicy.INDIVIDUAL then none
  else
    match resolvedVersion tvl path.version with
    | none => none
    | some requested_root_dataset_version =>
      match tvl.get_dataset_tree requested_root_dataset_version with
      | none => none
      | some (_, dataset_tree) =>
        match dataset_tree.get_metadata_root_record "" with
        | none => none
        | some root_mrr =>
          let search := get_matching_paths dataset_tree [path.dataset_path]
            recursive false
          let records := (search.1.map
            (matchRecords mapper realm root_mrr.dataset_identifier
              root_mrr.dataset_version report_on path.local_path recursive)).flatten
          some (records, search.2)

/-- The result records of a dump invocation (empty when the invocation
terminates abnormally). -/
def dumpRecords (mapper realm : String) (tvl : TreeVersionList)
    (path : TreeMetadataPath) (report_on : ReportOn)
    (report_policy : ReportPolicy) (recursive : Bool) : List JSON :=
  ((dump_from_dataset_tree mapper realm tvl path report_on report_policy
    recursive).map (fun r => r.1)).getD []

/-!
The write pipeline, from `extract.py`.  The realm's persisted data is
abstracted to the contents relevant to one write target: the
dataset-level metadata of the target dataset-tree node and the target
dataset's file tree (a mapping from file tree path to per-file
metadata), plus the advisory lock state of the realm.  The fallible
collaborator steps (loading the top-level nodes, persisting the tree
version list and UUID set, flushing object references) are driven by
an explicit failure injection, so that every execution path of the
source's straight-line code is represented.
-/

/-- `ExtractorResult` from `extractors/base.py`, as consumed by
`extract.py`. -/
structure ExtractorResult where
  extractor_version : String
  extraction_parameter : List (String × String)
  extraction_success : Bool
  datalad_result_dict : JSON
  immediate_data : JSON

/-- The slice of `ExtractionParameter` (from `extract.py`) that the
write pipeline reads. -/
structure ExtractionParameter where
  realm : String
  source_dataset_id : String
  extractor_name : String
  dataset_tree_path : String
  file_tree_path : String
  source_primary_data_version : String
  agent_name : String
  agent_email : String

/-- The observable state of one realm: the advisory lock and the
persisted metadata reachable from the top-level indices at the write
target. -/
structure RealmState where
  locked : Bool
  storedDatasetMetadata : Metadata
  storedFileTree : List (String × Metadata)

/-- Errors of the write pipeline's collaborator steps. -/
inductive WriteError where
  | storageUnavailable
  | persistFailure
deriving DecidableEq

/-- Failure injection for the collaborator steps of one write. -/
structure FailureSpec where
  failLoadTopNodes : Bool
  failSaveTreeVersionList : Bool
  failSaveUuidSet : Bool
  failFlushObjectReferences : Bool
deriving DecidableEq

/-- The no-failure write environment. -/
def noFail : FailureSpec := ⟨false, false, false, false⟩

/-- `add_metadata_source` from `extract.py`: one extractor run is
appended to the given metadata through
`Metadata.add_extractor_run`, carrying agent, configuration and
content source. -/
def add_metadata_source (metadata : Metadata) (time_stamp : Nat)
    (ep : ExtractionParameter) (result : ExtractorResult)
    (metadata_source : MetadataSource) : Metadata :=
  metadata.add_extractor_run time_stamp ep.extractor_name ep.agent_name
    ep.agent_email
    ⟨result.extractor_version, result.extraction_parameter⟩
    metadata_source

/-- `add_dataset_metadata_source` from `extract.py`: lock the realm,
load the top-level nodes and the metadata root record (auto-create),
get or create the dataset-level metadata, add the run, persist the
tree version list and the UUID set, flush, unlock.  The source has no
try/finally: when a step raises, the function returns with the
remaining steps — `unlock_backend` included — not executed. -/
def add_dataset_metadata_source (fs : FailureSpec) (time_stamp : Nat)
    (ep : ExtractionParameter) (result : ExtractorResult)
    (metadata_source : MetadataSource) (s : RealmState) :
    RealmState × Option WriteError :=
  let s := { s with locked := true }
  if fs.failLoadTopNodes then (s, some WriteError.storageUnavailable)
  else
    let dataset_level_metadata := s.storedDatasetMetadata
    let newMetadata :=
      add_metadata_source dataset_level_metadata time_stamp ep result
        metadata_source
    if fs.failSaveTreeVersionList then (s, some WriteError.persistFailure)
    else
      let s := { s with storedDatasetMetadata := newMetadata }
      if fs.failSaveUuidSet then (s, some WriteError.persistFailure)
      else if fs.failFlushObjectReferences then
        (s, some WriteError.persistFailure)
      else
        ({ s with locked := false }, none)

/-- `add_file_metadata_source` from `extract.py`: as the dataset-level
variant, but the run is added to the per-file metadata at
`ep.file_tree_path` in the file tree (created when absent). -/
def add_file_metadata_source (fs : FailureSpec) (time_stamp : Nat)
    (ep : ExtractionParameter) (result : ExtractorResult)
    (metadata_source : MetadataSource) (s : RealmState) :
    RealmState × Option WriteError :=
  let s := { s with locked := true }
  if fs.failLoadTopNodes then (s, some WriteError.storageUnavailable)
  else
    let file_level_metadata := (alookup ep.file_tree_path s.storedFileTree).getD []
    let newMetadata :=
      add_metadata_source file_level_metadata time_stamp ep result
        metadata_source
    if fs.failSaveTreeVersionList then (s, some WriteError.persistFailure)
    else
      let s := { s with storedFileTree := aset s.storedFileTree ep.file_tree_path newMetadata }
      if fs.failSaveUuidSet then (s, some WriteError.persistFailure)
      else if fs.failFlushObjectReferences then
        (s, some WriteError.persistFailure)
      else
        ({ s with locked := false }, none)

/-- `DataOutputCategory` from `extractors/base.py`. -/
inductive DataOutputCategory where
  | IMMEDIATE
  | FILE
  | DIRECTORY
deriving DecidableEq

/-- The failure outcomes of one extraction. -/
inductive ExtractError where
  | notImplemented
  | write (e : WriteError)
deriving DecidableEq

/-- Setting `result["action"] = "meta_extract"` on a result
dictionary, as both `perform_*_metadata_extraction` functions do
before yielding. -/
def withAction (d : JSON) : JSON :=
  match d with
  | JSON.obj kvs => JSON.obj (aset kvs "action" (JSON.s "meta_extract"))
  | other => other

/-- `perform_dataset_metadata_extraction` from `extract.py`: dispatch
on the extractor's data-output category.  IMMEDIATE output is stored
inline, FILE output is first hashed into the git object store
(`copy_file_to_git`, abstracted by `file_object_hash`) and stored by
reference, DIRECTORY output raises `NotImplementedError`.  Returns the
updated realm state and either the yielded result dictionaries or the
error that aborted the extraction. -/
def perform_dataset_metadata_extraction (fs : FailureSpec) (time_stamp : Nat)
    (ep : ExtractionParameter) (output_category : DataOutputCategory)
    (result : ExtractorResult) (file_object_hash : String) (s : RealmState) :
    RealmState × Except ExtractError (List JSON) :=
  match output_category with
  | DataOutputCategory.IMMEDIATE =>
    if result.extraction_success then
      match add_dataset_metadata_source fs time_stamp ep result
        (MetadataSource.immediate result.immediate_data) s with
      | (s', some e) => (s', Except.error (ExtractError.write e))
      | (s', none) => (s', Except.ok [withAction result.datalad_result_dict])
    else (s, Except.ok [withAction result.datalad_result_dict])
  | DataOutputCategory.FILE =>
    if result.extraction_success then
      match add_dataset_metadata_source fs time_stamp ep result
        (MetadataSource.localGit ep.realm file_object_hash) s with
      | (s', some e) => (s', Except.error (ExtractError.write e))
      | (s', none) => (s', Except.ok [withAction result.datalad_result_dict])
    else (s, Except.ok [withAction result.datalad_result_dict])
  | DataOutputCategory.DIRECTORY => (s, Except.error ExtractError.notImplemented)

/-- `perform_file_metadata_extraction` from `extract.py`: as the
dataset-level variant, targeting the per-file metadata. -/
def perform_file_metadata_extraction (fs : FailureSpec) (time_stamp : Nat)
    (ep : ExtractionParameter) (output_category : DataOutputCategory)
    (result : ExtractorResult) (file_object_hash : String) (s : RealmState) :
    RealmState × Except ExtractError (List JSON) :=
  match output_category with
  | DataOutputCategory.IMMEDIATE =>
    if result.extraction_success then
      match add_file_metadata_source fs time_stamp ep result
        (MetadataSource.immediate result.immediate_data) s with
      | (s', some e) => (s', Except.error (ExtractError.write e))
      | (s', none) => (s', Except.ok [withAction result.datalad_result_dict])
    else (s, Except.ok [withAction result.datalad_result_dict])
  | DataOutputCategory.FILE =>
    if result.extraction_success then
      match add_file_metadata_source fs time_stamp ep result
        (MetadataSource.localGit ep.realm file_object_hash) s with
      | (s', some e) => (s', Except.error (ExtractError.write e))
      | (s', none) => (s', Except.ok [withAction result.datalad_result_dict])
    else (s, Except.ok [withAction result.datalad_result_dict])
  | DataOutputCategory.DIRECTORY => (s, Except.error ExtractError.notImplemented)

/-- One write-pipeline invocation for N-writes sequences: the
timestamped request data of one `add_dataset_metadata_source` call. -/
structure WriteRequest where
  time_stamp : Nat
  result : ExtractorResult
  source : MetadataSource

/-- A sequence of failure-free dataset-level write-pipeline
invocations against the same realm and extraction parameters. -/
def runDatasetWrites (ep : ExtractionParameter) (ws : List WriteRequest)
    (s : RealmState) : RealmState :=
  ws.foldl
    (fun s w =>
      (add_dataset_metadata_source noFail w.time_stamp ep w.result w.source s).1)
    s

/-!
The custom dataset-level extractor, from
`extractors/custom_dataset.py`.  The dataset is abstracted to what the
extractor reads: the configured source-file list and the JSON objects
parseable from the dataset's files.
-/

/-- A JSON object, i.e. the top-level dictionary loaded from a custom
metadata source file. -/
abbrev JSONObject : Type := List (String × JSON)

/-- The dataset as seen by the custom extractor: the value of the
`datalad.metadata.custom-dataset-source` configuration and the
dataset's files that hold a JSON object (a file absent from `files`
either does not exist or cannot be loaded). -/
structure CustomDatasetEnv where
  cfg_srcfiles : List String
  files : List (String × JSONObject)

/-- `jsonload` applied to one source file: the parsed JSON object, or
`none` when the file is missing (the source raises there). -/
def jsonloadFile (ds : CustomDatasetEnv) (srcfile : String) : Option JSONObject :=
  alookup srcfile ds.files

/-- `_get_dsmeta_srcfiles` from `custom_dataset.py`: the configured
source files; when none are configured, the default
`.metadata/dataset.json` if it exists, else the empty list.  Returns
`(srcfiles, cfg_srcfiles)`. -/
def _get_dsmeta_srcfiles (ds : CustomDatasetEnv) : List String × List String :=
  if ds.cfg_srcfiles = [] then
    (if (jsonloadFile ds ".metadata/dataset.json").isSome then
      ([".metadata/dataset.json"], [])
     else ([], []))
  else (ds.cfg_srcfiles, ds.cfg_srcfiles)

/-- `CustomDatasetMetadata.get_metadata` from `custom_dataset.py`:
start from the empty dictionary and `update` it with the JSON object
of every source file, left to right.  `none` models the exception
raised when a source file cannot be loaded. -/
def CustomDatasetMetadata.get_metadata (ds : CustomDatasetEnv) : Option JSONObject :=
  (_get_dsmeta_srcfiles ds).1.foldl
    (fun acc srcfile =>
      acc.bind (fun dsmeta =>
        (jsonloadFile ds srcfile).map (fun meta => dictUpdate dsmeta meta)))
    (some [])

/-- `CustomDatasetExtractor.extract` from `custom_dataset.py`: always
an `ExtractorResult` with version `0.0.1`, success `True`, result
dictionary `{"type": "dataset", "status": "ok"}` and the collected
metadata as immediate data (`none` when loading a source file
raises). -/
def CustomDatasetExtractor.extract (ds : CustomDatasetEnv)
    (parameter : List (String × String)) : Option ExtractorResult :=
  (CustomDatasetMetadata.get_metadata ds).map (fun dsmeta =>
    { extractor_version := "0.0.1"
      extraction_parameter := parameter
      extraction_success := true
      datalad_result_dict :=
        JSON.obj [("type", JSON.s "dataset"), ("status", JSON.s "ok")]
      immediate_data := JSON.obj dsmeta })

/-!
The run-provenance extractor, from `extractors/runprov.py`.
-/

/-- One entry of a run record's diff, as parsed by
`yield_run_records`. -/
structure DiffEntry where
  prev_mode : String
  mode : String
  prev_gitshasum : String
  gitshasum : String
  path : String
deriving DecidableEq

/-- One run record, as parsed by `yield_run_records` (latest commit
first). -/
structure RunRecord where
  gitshasum : String
  author_name : String
  author_email : String
  commit_date : String
  message : String
  diff : List DiffEntry
deriving DecidableEq

/-- One entry of the extractor's `path_db`: the generating activity
and the gitshasum the activity gave the file. -/
structure PathDbEntry where
  activity : String
  gitshasum : String
deriving DecidableEq

/-- Processing one diff entry of a run record
(`RunProvenanceExtractor.__call__`): an already-mapped path is kept
(records come latest first, so the existing entry is the latest
change); a deletion entry (mode `000000`) is skipped; otherwise the
path is mapped to this record's activity and the entry's
gitshasum. -/
def addDiffEntry (db : List (String × PathDbEntry)) (activity : String)
    (d : DiffEntry) : List (String × PathDbEntry) :=
  if (alookup d.path db).isSome then db
  else if d.mode = "000000" then db
  else db ++ [(d.path, ⟨activity, d.gitshasum⟩)]

/-- The `path_db` built by `RunProvenanceExtractor.__call__` from the
run records (latest first). -/
def build_path_db (recs : List RunRecord) : List (String × PathDbEntry) :=
  recs.foldl
    (fun db rec => rec.diff.foldl (fun db d => addDiffEntry db rec.gitshasum d) db)
    []

/-- The generating activity of a path, stated directly: the first run
record in the latest-first list whose diff touches the path with a
mode other than `000000`, paired with that diff entry's gitshasum.
This is the characterization the `path_db` is verified against. -/
def generatingEntry (recs : List RunRecord) (p : String) : Option PathDbEntry :=
  match recs with
  | [] => none
  | r :: rest =>
    match r.diff.find? (fun d => d.path = p && d.mode ≠ "000000") with
    | some d => some ⟨r.gitshasum, d.gitshasum⟩
    | none => generatingEntry rest p

/-- One entry of the `status` list consumed by the extractor.  `path`
is the intra-dataset path (the source converts the absolute status
path to it before the lookup). -/
structure StatusEntry where
  path : String
  type : String
  gitshasum : String
deriving DecidableEq

/-- One file-level provenance result yielded by the extractor. -/
structure FileProvResult where
  path : String
  type : String
  activity : String
deriving DecidableEq

/-- The file-level loop of `RunProvenanceExtractor.__call__`: for
`process_type` `all` or `content`, a status entry yields a result
exactly when the `path_db` maps its path to an entry whose gitshasum
equals the status entry's current gitshasum; the result's
`prov:wasGeneratedBy` names the mapped activity. -/
def runprov_file_results (recs : List RunRecord) (status : List StatusEntry)
    (process_type : String) : List FileProvResult :=
  if process_type = "all" ∨ process_type = "content" then
    status.filterMap (fun e =>
      match alookup e.path (build_path_db recs) with
      | some dbrec =>
        if dbrec.gitshasum = e.gitshasum then
          some ⟨e.path, e.type, dbrec.activity⟩
        else none
      | none => none)
  else []

/-!
Concrete inputs used by the scenario theorems, the counterexamples and
the witnesses.
-/

/-- Helper: projection through nested JSON objects. -/
def objLookup (j : JSON) (k : String) : Option JSON :=
  match j with
  | JSON.obj kvs => alookup k kvs
  | _ => none

/-- Helper: the key list of a JSON object (empty for non-objects). -/
def objKeys (j : JSON) : List String :=
  match j with
  | JSON.obj kvs => kvs.map (fun p => p.1)
  | _ => []

/-- Helper: projection through a chain of nested JSON object keys. -/
def jpath (j : JSON) (ks : List String) : Option JSON :=
  ks.foldl (fun acc k => acc.bind (fun j' => objLookup j' k)) (some j)

/-- Helper: does a result record carry the given `type` value? -/
def typeIs (j : JSON) (t : String) : Bool :=
  match objLookup j "type" with
  | some (JSON.s t') => t' = t
  | _ => false

/-- Helper: the Boolean shape check of a query result record — outer
keys, source keys, and a `type` of `dataset` or `file`. -/
def resultRecordShape (j : JSON) : Bool :=
  (objKeys j = ["status", "action", "source", "type", "metadata"]) &&
  (match objLookup j "source" with
   | some src => objKeys src = ["mapper", "realm"]
   | none => false) &&
  (typeIs j "dataset" || typeIs j "file")

/-- An extraction-parameter example targeting extractor `E1`. -/
def epX : ExtractionParameter :=
  ⟨"/realm", "uuid-1", "E1", "", "f.txt", "v0", "Alice", "alice@example.com"⟩

/-- An extractor result example (version `1.0`, empty parameters). -/
def resX : ExtractorResult :=
  ⟨"1.0", [], true,
   JSON.obj [("type", JSON.s "dataset"), ("status", JSON.s "ok")], JSON.obj []⟩

/-- An unlocked realm with no recorded metadata. -/
def s0 : RealmState := ⟨false, [], []⟩

/-- Failure injection: persisting the tree version list raises
`PersistFailure`; everything before succeeds. -/
def persistFails : FailureSpec := ⟨false, true, false, false⟩

/-- Two writes of extractor runs with the same configuration
(version `1.0`, empty parameters) at timestamps 1 and 2. -/
def w1 : WriteRequest := ⟨1, resX, MetadataSource.immediate (JSON.obj [])⟩

/-- Second write with the same configuration, timestamp 2. -/
def w2 : WriteRequest := ⟨2, resX, MetadataSource.immediate (JSON.obj [])⟩

/-- An extractor result with parameter `p=1`. -/
def resP1 : ExtractorResult :=
  ⟨"1.0", [("p", "1")], true,
   JSON.obj [("type", JSON.s "dataset"), ("status", JSON.s "ok")], JSON.obj []⟩

/-- An extractor result with parameter `p=2`. -/
def resP2 : ExtractorResult :=
  ⟨"1.0", [("p", "2")], true,
   JSON.obj [("type", JSON.s "dataset"), ("status", JSON.s "ok")], JSON.obj []⟩

/-- A write with configuration `(1.0, p=1)` at timestamp 1. -/
def w1d : WriteRequest := ⟨1, resP1, MetadataSource.immediate (JSON.obj [])⟩

/-- A write with configuration `(1.0, p=2)` at timestamp 2. -/
def w2d : WriteRequest := ⟨2, resP2, MetadataSource.immediate (JSON.obj [])⟩

/-- An extractor run of `E1` at timestamp 1 (configuration `p=1`). -/
def inst1 : MetadataInstance :=
  ⟨1, "Alice", "alice@example.com", ⟨"1.0", [("p", "1")]⟩,
   MetadataSource.immediate (JSON.obj [])⟩

/-- An extractor run of `E1` at timestamp 2 (configuration `p=2`). -/
def inst2 : MetadataInstance :=
  ⟨2, "Alice", "alice@example.com", ⟨"1.0", [("p", "2")]⟩,
   MetadataSource.immediate (JSON.obj [])⟩

/-- An empty file tree. -/
def emptyFileTree : FileTree := PTree.node none []

/-- The metadata root record of the dataset node `sub/a`, whose
dataset-level metadata holds the two `E1` runs. -/
def mrrE1 : MetadataRootRecord :=
  ⟨"uuid-1", "v1", ⟨[("E1", [inst1, inst2])], none⟩, ⟨emptyFileTree, none⟩⟩

/-- The metadata root record of the tree root (no recorded runs). -/
def rootMrr : MetadataRootRecord :=
  ⟨"uuid-root", "vroot", ⟨[], none⟩, ⟨emptyFileTree, none⟩⟩

/-- A dataset tree containing (besides the root) only the dataset node
`sub/a`, which carries `mrrE1`. -/
def treeE1 : DatasetTree :=
  PTree.node (some rootMrr)
    [("sub", PTree.node none [("a", PTree.node (some mrrE1) [])])]

/-- A tree version list with the single version `vroot` mapping to
`treeE1`. -/
def tvlE1 : TreeVersionList := [("vroot", 10, treeE1)]

/-- The dump path addressing dataset `sub/a`, version unspecified. -/
def pathSubA : TreeMetadataPath := ⟨"sub/a", none, ""⟩

/-- The dump path addressing the missing dataset `missing/path`. -/
def pathMissing : TreeMetadataPath := ⟨"missing/path", none, ""⟩

/-- A tree version list with two recorded versions: `v1` recorded
first (timestamp 1), `v2` recorded last (timestamp 2). -/
def tvl2 : TreeVersionList :=
  (TreeVersionList.recordVersion [] "v1" 1 (PTree.node (some rootMrr) [])).recordVersion
    "v2" 2 (PTree.node (some rootMrr) [])

/-- A concrete extractor run used by the record-shape counterexample. -/
def i0 : MetadataInstance :=
  ⟨1, "Alice", "alice@example.com", ⟨"1.0", []⟩,
   MetadataSource.immediate (JSON.obj [])⟩

/-- A custom-extractor dataset with two configured sources that share
the key `k`. -/
def ds9 : CustomDatasetEnv :=
  ⟨["a.json", "b.json"],
   [("a.json", [("k", JSON.s "1"), ("x", JSON.s "a")]),
    ("b.json", [("k", JSON.s "2")])]⟩

/-- A custom-extractor dataset with no configured source and no
default `.metadata/dataset.json`. -/
def dsEmpty : CustomDatasetEnv := ⟨[], []⟩

/-- The latest run record: it deletes `f.txt` (mode `000000`). -/
def recNew : RunRecord :=
  ⟨"act2", "Alice", "alice@example.com", "2020", "run 2",
   [⟨"100644", "000000", "h1", "0000000", "f.txt"⟩]⟩

/-- The earlier run record: it created `f.txt` with gitshasum `h1`. -/
def recOld : RunRecord :=
  ⟨"act1", "Alice", "alice@example.com", "2019", "run 1",
   [⟨"000000", "100644", "0000000", "h1", "f.txt"⟩]⟩

/-- The run records, latest first. -/
def recs10 : List RunRecord := [recNew, recOld]

/-- A status list with the single file `f.txt` at gitshasum `h1`. -/
def status10 : List StatusEntry := [⟨"f.txt", "file", "h1"⟩]

/-- The extractor configuration a write request records
(`ExtractorConfiguration(result.extractor_version,
result.extraction_parameter)`). -/
def cfgOf (w : WriteRequest) : ExtractorConfiguration :=
  ⟨w.result.extractor_version, w.result.extraction_parameter⟩

/-- The metadata instance a write request records for the given
extraction parameters. -/
def instOf (ep : ExtractionParameter) (w : WriteRequest) : MetadataInstance :=
  ⟨w.time_stamp, ep.agent_name, ep.agent_email, cfgOf w, w.source⟩

/-!
Helper lemmas.
-/

theorem add_dataset_metadata_source_noFail (time_stamp : Nat)
    (ep : ExtractionParameter) (result : ExtractorResult)
    (src : MetadataSource) (s : RealmState) :
    add_dataset_metadata_source noFail time_stamp ep result src s =
      (⟨false, add_metadata_source s.storedDatasetMetadata time_stamp ep result src,
        s.storedFileTree⟩, none) := rfl

theorem add_file_metadata_source_noFail (time_stamp : Nat)
    (ep : ExtractionParameter) (result : ExtractorResult)
    (src : MetadataSource) (s : RealmState) :
    add_file_metadata_source noFail time_stamp ep result src s =
      (⟨false, s.storedDatasetMetadata,
        aset s.storedFileTree ep.file_tree_path
          (add_metadata_source ((alookup ep.file_tree_path s.storedFileTree).getD [])
            time_stamp ep result src)⟩, none) := rfl

/-!
Claim theorems.
-/

/-- C4 (code bug): when persisting the tree version list raises
`PersistFailure`, both `add_file_metadata_source` and
`add_dataset_metadata_source` return with the realm lock still held —
there is no try/finally, so `unlock_backend` is skipped on the error
path — although the claim (and the specification) require the lock to
be released on every path.  The top-level index state is indeed left
unchanged by the failed write, and the lock is acquired before loading
and released on the failure-free path. -/
theorem C4_lock_held_on_persist_failure :
    ((add_dataset_metadata_source persistFails 1 epX resX
        (MetadataSource.immediate (JSON.obj [])) s0).1.locked = true ∧
     (add_dataset_metadata_source persistFails 1 epX resX
        (MetadataSource.immediate (JSON.obj [])) s0).2 =
          some WriteError.persistFailure ∧
     (add_dataset_metadata_source persistFails 1 epX resX
        (MetadataSource.immediate (JSON.obj [])) s0).1.storedDatasetMetadata =
          s0.storedDatasetMetadata ∧
     (add_dataset_metadata_source persistFails 1 epX resX
        (MetadataSource.immediate (JSON.obj [])) s0).1.storedFileTree =
          s0.storedFileTree) ∧
    ((add_file_metadata_source persistFails 1 epX resX
        (MetadataSource.immediate (JSON.obj [])) s0).1.locked = true ∧
     (add_file_metadata_source persistFails 1 epX resX
        (MetadataSource.immediate (JSON.obj [])) s0).2 =
          some WriteError.persistFailure ∧
     (add_file_metadata_source persistFails 1 epX resX
        (MetadataSource.immediate (JSON.obj [])) s0).1.storedFileTree =
          s0.storedFileTree) ∧
    (∀ (t : Nat) (ep : ExtractionParameter) (r : ExtractorResult)
        (src : MetadataSource) (s : RealmState),
      (add_dataset_metadata_source noFail t ep r src s).1.locked = false ∧
      (add_file_metadata_source noFail t ep r src s).1.locked = false) :=
  ⟨⟨rfl, rfl, rfl, rfl⟩, ⟨rfl, rfl, rfl⟩, fun _ _ _ _ _ => ⟨rfl, rfl⟩⟩

/-- C6: a DIRECTORY-category extractor makes the extraction signal
"not implemented" and leaves the realm state untouched, for both the
file-level and the dataset-level pipeline; extractions with the other
output categories are unaffected (they complete with a result list in
a failure-free environment).  One `meta-extract` invocation performs
exactly one extraction, so the failure's scope is that single
extraction. -/
theorem C6_directory_category_not_implemented :
    (∀ (fs : FailureSpec) (t : Nat) (ep : ExtractionParameter)
        (r : ExtractorResult) (h : String) (s : RealmState),
      perform_file_metadata_extraction fs t ep DataOutputCategory.DIRECTORY r h s =
        (s, Except.error ExtractError.notImplemented)) ∧
    (∀ (fs : FailureSpec) (t : Nat) (ep : ExtractionParameter)
        (r : ExtractorResult) (h : String) (s : RealmState),
      perform_dataset_metadata_extraction fs t ep DataOutputCategory.DIRECTORY r h s =
        (s, Except.error ExtractError.notImplemented)) ∧
    (∀ (t : Nat) (ep : ExtractionParameter) (r : ExtractorResult)
        (h : String) (s : RealmState),
      ∃ s' out,
        perform_dataset_metadata_extraction noFail t ep
          DataOutputCategory.IMMEDIATE r h s = (s', Except.ok out)) ∧
    (∀ (t : Nat) (ep : ExtractionParameter) (r : ExtractorResult)
        (h : String) (s : RealmState),
      ∃ s' out,
        perform_file_metadata_extraction noFail t ep
          DataOutputCategory.FILE r h s = (s', Except.ok out)) := by
  refine ⟨fun _ _ _ _ _ _ => rfl, fun _ _ _ _ _ _ => rfl, ?_, ?_⟩
  · intro t ep r h s
    cases hr : r.extraction_success
    · exact ⟨s, [withAction r.datalad_result_dict],
        by simp [perform_dataset_metadata_extraction, hr]⟩
    · exact ⟨⟨false,
          add_metadata_source s.storedDatasetMetadata t ep r
            (MetadataSource.immediate r.immediate_data),
          s.storedFileTree⟩,
        [withAction r.datalad_result_dict], by
        simp [perform_dataset_metadata_extraction, hr,
          add_dataset_metadata_source_noFail]⟩
  · intro t ep r h s
    cases hr : r.extraction_success
    · exact ⟨s, [withAction r.datalad_result_dict],
        by simp [perform_file_metadata_extraction, hr]⟩
    · exact ⟨⟨false, s.storedDatasetMetadata,
          aset s.storedFileTree ep.file_tree_path
            (add_metadata_source
              ((alookup ep.file_tree_path s.storedFileTree).getD []) t ep r
              (MetadataSource.localGit ep.realm h))⟩,
        [withAction r.datalad_result_dict], by
        simp [perform_file_metadata_extraction, hr,
          add_file_metadata_source_noFail]⟩

theorem resultRecordShape_create (mapper realm : String) (md : JSON) (ty : String)
    (h : ty = "dataset" ∨ ty = "file") :
    resultRecordShape (_create_result_record mapper realm md ty) = true := by
  rcases h with rfl | rfl <;> rfl

theorem shape_show_dataset (mapper realm ri rv p : String)
    (mrr : MetadataRootRecord) :
    ∀ r ∈ (show_dataset_metadata mapper realm ri rv p mrr).1,
      resultRecordShape r = true := by
  intro r hr
  simp only [show_dataset_metadata, List.mem_map] at hr
  obtain ⟨run, _, rfl⟩ := hr
  exact resultRecordShape_create _ _ _ _ (Or.inl rfl)

theorem shape_fileMatchRecords (mapper realm ri rv p : String)
    (m : MatchRecord (Connector Metadata)) :
    ∀ r ∈ fileMatchRecords mapper realm ri rv p m,
      resultRecordShape r = true := by
  intro r hr
  unfold fileMatchRecords at hr
  cases hv : m.node.value with
  | none => rw [hv] at hr; simp at hr
  | some mc =>
    rw [hv] at hr
    simp only [List.mem_map] at hr
    obtain ⟨run, _, rfl⟩ := hr
    exact resultRecordShape_create _ _ _ _ (Or.inr rfl)

theorem shape_show_file (mapper realm ri rv p : String)
    (mrr : MetadataRootRecord) (pat : String) (recursive : Bool) :
    ∀ r ∈ (show_file_tree_metadata mapper realm ri rv p mrr pat recursive).1,
      resultRecordShape r = true := by
  intro r hr
  simp only [show_file_tree_metadata, List.mem_flatten, List.mem_map] at hr
  obtain ⟨l, ⟨m, _, rfl⟩, hrl⟩ := hr
  exact shape_fileMatchRecords mapper realm ri rv p m r hrl

theorem shape_matchRecords (mapper realm ri rv : String) (ro : ReportOn)
    (lp : String) (recursive : Bool) (m : MatchRecord MetadataRootRecord) :
    ∀ r ∈ matchRecords mapper realm ri rv ro lp recursive m,
      resultRecordShape r = true := by
  intro r hr
  unfold matchRecords at hr
  cases hv : m.node.value with
  | none => rw [hv] at hr; simp at hr
  | some mrr =>
    rw [hv] at hr
    rw [List.mem_append] at hr
    rcases hr with hr | hr
    · split at hr
      · exact shape_show_dataset mapper realm ri rv m.path mrr r hr
      · simp at hr
    · split at hr
      · exact shape_show_file mapper realm ri rv m.path mrr lp recursive r hr
      · simp at hr

/-- C8: after `show_dataset_metadata` has produced the records of a
matched dataset node, the node's dataset-level metadata connector is
in the unloaded state, and after `show_file_tree_metadata` has
produced a node's file records, the node's file-tree connector is in
the unloaded state — each before the dump loop moves to the next
match.  `matchRecords` invokes the former exactly when the report
scope covers datasets and the latter exactly when it covers files. -/
theorem C8_connectors_purged_after_emission :
    (∀ (mapper realm ri rv p : String) (mrr : MetadataRootRecord),
      (show_dataset_metadata mapper realm ri rv p mrr).2.dataset_level_metadata.cache =
        none) ∧
    (∀ (mapper realm ri rv p : String) (mrr : MetadataRootRecord)
        (pat : String) (recursive : Bool),
      (show_file_tree_metadata mapper realm ri rv p mrr pat recursive).2.2.file_tree.cache =
        none) :=
  ⟨fun _ _ _ _ _ _ => rfl, fun _ _ _ _ _ _ _ _ => rfl⟩

/-- C7 (counterexample): the per-instance mapping of a result record
has no key `extractor_result_reference`; the instance's result
location is stored under the key `extractor_result`. -/
theorem C7_counterexample :
    objLookup (_create_metadata_instance_record i0) "extractor_result_reference" =
      none ∧
    (objLookup (_create_metadata_instance_record i0) "extractor_result").isSome =
      true ∧
    objKeys (_create_metadata_instance_record i0) ≠
      ["extraction_time", "extraction_agent", "extractor_version",
       "extractor_parameter", "extractor_result_reference"] :=
  ⟨rfl, rfl, by decide⟩

/-- C7 (amended): every result record emitted by the query pipeline
has the shape `{status, action, source: {mapper, realm}, type,
metadata}` with `type` either `dataset` or `file`, and every
per-instance mapping nested under `metadata` contains exactly the keys
`extraction_time`, `extraction_agent`, `extractor_version`,
`extractor_parameter` and `extractor_result` (not
`extractor_result_reference`). -/
theorem C7_amended :
    (∀ i : MetadataInstance,
      objKeys (_create_metadata_instance_record i) =
        ["extraction_time", "extraction_agent", "extractor_version",
         "extractor_parameter", "extractor_result"]) ∧
    (∀ (mapper realm : String) (md : JSON) (ty : String),
      objKeys (_create_result_record mapper realm md ty) =
        ["status", "action", "source", "type", "metadata"] ∧
      (objLookup (_create_result_record mapper realm md ty) "source").map objKeys =
        some ["mapper", "realm"]) ∧
    (∀ (mapper realm : String) (tvl : TreeVersionList) (path : TreeMetadataPath)
        (ro : ReportOn) (rp : ReportPolicy) (recursive : Bool),
      (dumpRecords mapper realm tvl path ro rp recursive).all resultRecordShape =
        true) := by
  refine ⟨fun _ => rfl, fun _ _ _ _ => ⟨rfl, rfl⟩, ?_⟩
  intro mapper realm tvl path ro rp recursive
  rw [List.all_eq_true]
  intro r hr
  unfold dumpRecords at hr
  cases hd : dump_from_dataset_tree mapper realm tvl path ro rp recursive with
  | none => rw [hd] at hr; simp at hr
  | some pr =>
    rw [hd] at hr
    simp only [Option.map_some', Option.getD_some] at hr
    unfold dump_from_dataset_tree at hd
    split at hd
    · simp at hd
    · split at hd
      · simp at hd
      · split at hd
        · simp at hd
        · split at hd
          · simp at hd
          · simp only [Option.some.injEq] at hd
            subst hd
            simp only [List.mem_flatten, List.mem_map] at hr
            obtain ⟨l, ⟨m, _, rfl⟩, hrl⟩ := hr
            exact shape_matchRecords _ _ _ _ ro path.local_path recursive m r hrl

/-- C2 (counterexample): a datasets-scope query of the node `sub/a`,
whose metadata holds two runs of extractor `E1` at timestamps 1 and 2,
emits exactly ONE result record — one per extractor name, carrying the
whole instance list — not one record per `MetadataInstance` as the
claim states. -/
theorem C2_counterexample :
    (dumpRecords "git" "/realm" tvlE1 pathSubA ReportOn.DATASETS
      ReportPolicy.INDIVIDUAL false).length = 1 ∧ (1 : Nat) ≠ 2 :=
  ⟨rfl, by decide⟩

/-- C2 (amended): under the individual report policy the query
pipeline emits exactly one result record per extractor name of a
matched dataset node; each record has type `dataset` and carries the
full chronologically ordered instance list of its extractor.  For the
scenario — two runs of `E1` with timestamps 1 < 2 at `sub/a`, queried
with pattern `sub/a` and datasets scope — the result is a single
dataset record whose `E1` instance list holds both runs, ordered
timestamp 1 then 2. -/
theorem C2_amended :
    (∀ (mapper realm ri rv p : String) (mrr : MetadataRootRecord),
      (show_dataset_metadata mapper realm ri rv p mrr).1.length =
        mrr.dataset_level_metadata.load_object.2.extractor_runs.length) ∧
    (∀ (mapper realm ri rv p : String) (mrr : MetadataRootRecord),
      (show_dataset_metadata mapper realm ri rv p mrr).1.all
        (fun r => typeIs r "dataset") = true) ∧
    ((dumpRecords "git" "/realm" tvlE1 pathSubA ReportOn.DATASETS
        ReportPolicy.INDIVIDUAL false).length = 1) ∧
    (((dumpRecords "git" "/realm" tvlE1 pathSubA ReportOn.DATASETS
          ReportPolicy.INDIVIDUAL false).head?.bind
        (fun r =>
          jpath r ["metadata", "dataset_level_metadata", "metadata", "E1"])) =
      some (JSON.arr [_create_metadata_instance_record inst1,
                      _create_metadata_instance_record inst2])) ∧
    inst1.time_stamp < inst2.time_stamp := by
  refine ⟨?_, ?_, rfl, rfl, by decide⟩
  · intro mapper realm ri rv p mrr
    simp [show_dataset_metadata]
  · intro mapper realm ri rv p mrr
    rw [List.all_eq_true]
    intro r hr
    simp only [show_dataset_metadata, List.mem_map] at hr
    obtain ⟨run, _, rfl⟩ := hr
    rfl

/-- C1 (counterexample): with two versions recorded in order (`v1`
then `v2`), a dump with the version unspecified resolves to `v1` — the
FIRST element of `versions()`, i.e. the earliest recorded version —
while the most recent version is `v2`. -/
theorem C1_counterexample :
    resolvedVersion tvl2 none = some "v1" ∧
    TreeVersionList.mostRecentVersion tvl2 = some "v2" ∧
    resolvedVersion tvl2 none ≠ TreeVersionList.mostRecentVersion tvl2 :=
  ⟨rfl, rfl, by decide⟩

/-- C1 (amended): when the version is unspecified,
`dump_from_dataset_tree` resolves the target to the FIRST version of
the tree version list — the earliest recorded one, which recording a
further version never changes — and not to the most recent; when a
version is explicitly requested, exactly that version is resolved
(and its tree fetched via `get_dataset_tree`). -/
theorem C1_amended :
    (∀ (tvl : TreeVersionList) (version : String) (ts : Nat)
        (tree : DatasetTree),
      resolvedVersion (tvl.recordVersion version ts tree) none =
        some (tvl.versions.headD version)) ∧
    (∀ (tvl : TreeVersionList) (v : String),
      resolvedVersion tvl (some v) = some v) := by
  constructor
  · intro tvl version ts tree
    cases tvl <;>
      simp [resolvedVersion, TreeVersionList.recordVersion,
        TreeVersionList.versions]
  · intro tvl v
    rfl

/-- C5: a pattern that resolves to no tree node is reported verbatim
in the not-found list and contributes no match (first conjunct, for
any tree); querying `missing/path` against the tree containing only
`sub/a` completes normally with no records and not-found list
`["missing/path"]` (second conjunct); the same tree queried with the
pattern `sub/a` still emits its one record (third conjunct), so the
operation never fails merely because a path is missing. -/
theorem C5_not_found_is_warning_only :
    (∀ (α : Type) (t : PTree α) (pattern : String) (recursive auto : Bool),
      resolveSegments t (splitPattern pattern) = none →
      get_matching_paths t [pattern] recursive auto = ([], [pattern])) ∧
    (dump_from_dataset_tree "git" "/realm" tvlE1 pathMissing ReportOn.DATASETS
      ReportPolicy.INDIVIDUAL false = some ([], ["missing/path"])) ∧
    ((dumpRecords "git" "/realm" tvlE1 pathSubA ReportOn.DATASETS
      ReportPolicy.INDIVIDUAL false).length = 1) := by
  refine ⟨?_, rfl, rfl⟩
  intro α t pattern recursive auto h
  simp [get_matching_paths, matchesFor, h]

/-- C5 witness: the not-found behaviour at the concrete tree. -/
theorem C5_witness :
    get_matching_paths treeE1 ["missing/path"] false false =
      ([], ["missing/path"]) :=
  C5_not_found_is_warning_only.1 _ treeE1 "missing/path" false false rfl

theorem instancesFor_add_extractor_run_self (m : Metadata) (ts : Nat)
    (name an ae : String) (cfg : ExtractorConfiguration) (src : MetadataSource) :
    (m.add_extractor_run ts name an ae cfg src).instancesFor name =
      addMetadataInstance (m.instancesFor name) ⟨ts, an, ae, cfg, src⟩ := by
  unfold Metadata.add_extractor_run Metadata.instancesFor
  rw [alookup_aset_self]
  rfl

theorem addMetadataInstance_append (l : List MetadataInstance)
    (i : MetadataInstance)
    (h : i.configuration ∉ l.map (fun j => j.configuration)) :
    addMetadataInstance l i = l ++ [i] := by
  induction l with
  | nil => rfl
  | cons j rest ih =>
    simp only [List.map_cons, List.mem_cons, not_or] at h
    simp only [addMetadataInstance]
    rw [if_neg (fun hc => h.1 hc.symm), ih h.2]
    rfl

theorem runDatasetWrites_instances (ep : ExtractionParameter)
    (ws : List WriteRequest) (s : RealmState)
    (hdisj : ∀ w ∈ ws, cfgOf w ∉
      (s.storedDatasetMetadata.instancesFor ep.extractor_name).map
        (fun i => i.configuration))
    (hnodup : (ws.map cfgOf).Nodup) :
    (runDatasetWrites ep ws s).storedDatasetMetadata.instancesFor
        ep.extractor_name =
      s.storedDatasetMetadata.instancesFor ep.extractor_name ++
        ws.map (instOf ep) := by
  induction ws generalizing s with
  | nil => simp [runDatasetWrites]
  | cons w rest ih =>
    have hrun : runDatasetWrites ep (w :: rest) s =
        runDatasetWrites ep rest
          ⟨false,
           add_metadata_source s.storedDatasetMetadata w.time_stamp ep
             w.result w.source,
           s.storedFileTree⟩ := by
      simp [runDatasetWrites, add_dataset_metadata_source_noFail]
    have hmeta :
        (add_metadata_source s.storedDatasetMetadata w.time_stamp ep
          w.result w.source).instancesFor ep.extractor_name =
        s.storedDatasetMetadata.instancesFor ep.extractor_name ++
          [instOf ep w] := by
      unfold add_metadata_source
      rw [instancesFor_add_extractor_run_self]
      exact addMetadataInstance_append _ _ (hdisj w (List.mem_cons_self w rest))
    have hnr := (List.nodup_cons.mp hnodup).2
    have hwn : cfgOf w ∉ rest.map cfgOf := (List.nodup_cons.mp hnodup).1
    rw [hrun, ih _ ?_ hnr]
    · rw [hmeta, List.append_assoc]
      rfl
    · intro w' hw'
      rw [hmeta]
      simp only [List.map_append, List.mem_append, not_or]
      constructor
      · exact hdisj w' (List.mem_cons_of_mem w hw')
      · simp only [List.map_cons, List.map_nil, List.mem_singleton]
        intro hc
        have hc' : cfgOf w' = cfgOf w := hc
        have hm := List.mem_map_of_mem cfgOf hw'
        rw [hc'] at hm
        exact hwn hm

/-- C3 (counterexample): two write-pipeline invocations for extractor
`E1` with the SAME configuration (version 1.0, empty parameters) at
timestamps 1 and 2 leave exactly ONE MetadataInstance, not two — the
second run overwrites the first, as the `Extract` docstring in
`extract.py` states. -/
theorem C3_counterexample :
    ((runDatasetWrites epX [w1, w2] s0).storedDatasetMetadata.instancesFor
      "E1").length = 1 ∧ (1 : Nat) ≠ 2 :=
  ⟨rfl, by decide⟩

/-- C3 (amended): metadata accumulates per configuration — for every
sequence of N write-pipeline invocations targeting the same
`(dataset_tree_path, extractor_name)` whose extractor configurations
are pairwise distinct, the Metadata entry for that extractor holds
exactly the N written instances afterwards, in write order and
unmodified; a write repeating an already-recorded configuration
instead overwrites that configuration's stored instance. -/
theorem C3_amended (ep : ExtractionParameter) (ws : List WriteRequest)
    (s : RealmState)
    (hempty : s.storedDatasetMetadata.instancesFor ep.extractor_name = [])
    (hnodup : (ws.map cfgOf).Nodup) :
    (runDatasetWrites ep ws s).storedDatasetMetadata.instancesFor
      ep.extractor_name = ws.map (instOf ep) := by
  have h := runDatasetWrites_instances ep ws s
    (by rw [hempty]; simp) hnodup
  rw [hempty] at h
  simpa using h

/-- C3 witness: two writes with distinct configurations record exactly
the two written instances. -/
theorem C3_witness :
    (runDatasetWrites epX [w1d, w2d] s0).storedDatasetMetadata.instancesFor
      epX.extractor_name = [w1d, w2d].map (instOf epX) :=
  C3_amended epX [w1d, w2d] s0 rfl (by decide)

theorem alookup_eq_none_of_not_mem {β : Type} (k : String)
    (l : List (String × β)) (h : k ∉ l.map Prod.fst) : alookup k l = none := by
  induction l with
  | nil => rfl
  | cons p rest ih =>
    rcases p with ⟨k', v⟩
    simp only [List.map_cons, List.mem_cons, not_or] at h
    rw [alookup_cons, if_neg (fun he => h.1 he.symm)]
    exact ih h.2

theorem dictUpdate_lookup_of_none {β : Type} (d m : List (String × β))
    (k : String) (h : alookup k m = none) :
    alookup k (dictUpdate d m) = alookup k d := by
  induction m generalizing d with
  | nil => rfl
  | cons p rest ih =>
    rcases p with ⟨k', v'⟩
    by_cases hk : k' = k
    · simp [alookup, hk] at h
    · simp only [alookup_cons, if_neg hk] at h
      show alookup k (dictUpdate (aset d k' v') rest) = alookup k d
      rw [ih _ h, alookup_aset_ne _ _ _ _ hk]

theorem dictUpdate_lookup_of_some {β : Type} (d m : List (String × β))
    (k : String) (v : β) (hnd : (m.map Prod.fst).Nodup)
    (h : alookup k m = some v) :
    alookup k (dictUpdate d m) = some v := by
  induction m generalizing d with
  | nil => simp at h
  | cons p rest ih =>
    rcases p with ⟨k', v'⟩
    simp only [List.map_cons, List.nodup_cons] at hnd
    by_cases hk : k' = k
    · subst hk
      rw [alookup_cons, if_pos rfl, Option.some.injEq] at h
      subst h
      have hrest : alookup k' rest = none :=
        alookup_eq_none_of_not_mem k' rest hnd.1
      show alookup k' (dictUpdate (aset d k' v') rest) = some v'
      rw [dictUpdate_lookup_of_none _ _ _ hrest, alookup_aset_self]
    · rw [alookup_cons, if_neg hk] at h
      show alookup k (dictUpdate (aset d k' v') rest) = some v
      exact ih _ hnd.2 h

/-- C9: `CustomDatasetExtractor.extract` returns results with
`extraction_success` True and the `{"type": "dataset", "status":
"ok"}` result dictionary, whose immediate data is the left-to-right
dictionary-update fold of the JSON objects loaded from the source
files (first conjunct); when no source is configured and the default
`.metadata/dataset.json` does not exist, the immediate data is the
empty dictionary (second conjunct); in a dictionary update the value
of the later operand wins on duplicate keys, while keys it lacks keep
the earlier value (third and fourth conjuncts). -/
theorem C9_custom_extract :
    (∀ (ds : CustomDatasetEnv) (param : List (String × String))
        (r : ExtractorResult),
      CustomDatasetExtractor.extract ds param = some r →
      r.extraction_success = true ∧
      r.datalad_result_dict =
        JSON.obj [("type", JSON.s "dataset"), ("status", JSON.s "ok")] ∧
      ∃ dsmeta, CustomDatasetMetadata.get_metadata ds = some dsmeta ∧
        r.immediate_data = JSON.obj dsmeta) ∧
    (∀ (ds : CustomDatasetEnv) (param : List (String × String)),
      ds.cfg_srcfiles = [] →
      jsonloadFile ds ".metadata/dataset.json" = none →
      (CustomDatasetExtractor.extract ds param).map
        (fun r => r.immediate_data) = some (JSON.obj [])) ∧
    (∀ (d m : JSONObject) (k : String) (v : JSON),
      (m.map Prod.fst).Nodup → alookup k m = some v →
      alookup k (dictUpdate d m) = some v) ∧
    (∀ (d m : JSONObject) (k : String), alookup k m = none →
      alookup k (dictUpdate d m) = alookup k d) := by
  refine ⟨?_, ?_, fun d m k v hnd h => dictUpdate_lookup_of_some d m k v hnd h,
    fun d m k h => dictUpdate_lookup_of_none d m k h⟩
  · intro ds param r h
    unfold CustomDatasetExtractor.extract at h
    cases hg : CustomDatasetMetadata.get_metadata ds with
    | none => rw [hg] at h; simp at h
    | some dsmeta =>
      rw [hg] at h
      simp only [Option.map_some', Option.some.injEq] at h
      subst h
      exact ⟨rfl, rfl, dsmeta, rfl, rfl⟩
  · intro ds param h1 h2
    simp [CustomDatasetExtractor.extract, CustomDatasetMetadata.get_metadata,
      _get_dsmeta_srcfiles, h1, h2]

/-- C9 witness: at the concrete dataset `ds9` (two configured sources
sharing the key `k`), extraction succeeds with the folded metadata,
in which the later source's value for `k` wins; and extraction at the
dataset with no sources succeeds with the empty dictionary. -/
theorem C9_witness :
    (∃ dsmeta, CustomDatasetMetadata.get_metadata ds9 = some dsmeta ∧
      JSON.obj [("k", JSON.s "2"), ("x", JSON.s "a")] = JSON.obj dsmeta) ∧
    alookup "k" (dictUpdate [("k", JSON.s "1"), ("x", JSON.s "a")]
      [("k", JSON.s "2")]) = some (JSON.s "2") ∧
    (CustomDatasetExtractor.extract dsEmpty []).map
      (fun r => r.immediate_data) = some (JSON.obj []) := by
  refine ⟨?_, ?_, ?_⟩
  · exact (C9_custom_extract.1 ds9 []
      ⟨"0.0.1", [], true,
       JSON.obj [("type", JSON.s "dataset"), ("status", JSON.s "ok")],
       JSON.obj [("k", JSON.s "2"), ("x", JSON.s "a")]⟩ rfl).2.2
  · exact C9_custom_extract.2.2.1 _ _ "k" (JSON.s "2")
      (by decide) rfl
  · exact C9_custom_extract.2.1 dsEmpty [] rfl rfl

theorem foldDiff_lookup_some (ds : List DiffEntry) (act : String)
    (db : List (String × PathDbEntry)) (p : String) (e : PathDbEntry)
    (h : alookup p db = some e) :
    alookup p (ds.foldl (fun db d => addDiffEntry db act d) db) = some e := by
  induction ds generalizing db with
  | nil => exact h
  | cons d rest ih =>
    show alookup p (rest.foldl _ (addDiffEntry db act d)) = some e
    apply ih
    unfold addDiffEntry
    by_cases h1 : (alookup d.path db).isSome
    · rw [if_pos h1]; exact h
    · rw [if_neg h1]
      by_cases h2 : d.mode = "000000"
      · rw [if_pos h2]; exact h
      · rw [if_neg h2, alookup_append, h]; rfl

theorem foldDiff_lookup_none (ds : List DiffEntry) (act : String)
    (db : List (String × PathDbEntry)) (p : String)
    (h : alookup p db = none) :
    alookup p (ds.foldl (fun db d => addDiffEntry db act d) db) =
      (ds.find? (fun d => d.path = p && d.mode ≠ "000000")).map
        (fun d => (⟨act, d.gitshasum⟩ : PathDbEntry)) := by
  induction ds generalizing db with
  | nil => simpa using h
  | cons d rest ih =>
    show alookup p (rest.foldl _ (addDiffEntry db act d)) = _
    by_cases hp : d.path = p
    · subst hp
      by_cases h2 : d.mode = "000000"
      · have hdb : addDiffEntry db act d = db := by
          unfold addDiffEntry
          rw [if_neg (by simp [h]), if_pos h2]
        rw [hdb, ih _ h, List.find?_cons_of_neg _ (by simp [h2])]
      · have hdb : addDiffEntry db act d =
            db ++ [(d.path, (⟨act, d.gitshasum⟩ : PathDbEntry))] := by
          unfold addDiffEntry
          rw [if_neg (by simp [h]), if_neg h2]
        have hlook : alookup d.path
            (db ++ [(d.path, (⟨act, d.gitshasum⟩ : PathDbEntry))]) =
            some ⟨act, d.gitshasum⟩ := by
          rw [alookup_append, h]
          simp [alookup, Option.orElse]
        rw [hdb, foldDiff_lookup_some rest act _ _ _ hlook,
          List.find?_cons_of_pos _ (by simp [h2])]
        rfl
    · have hlook : alookup p (addDiffEntry db act d) = none := by
        unfold addDiffEntry
        by_cases h1 : (alookup d.path db).isSome
        · rw [if_pos h1]; exact h
        · rw [if_neg h1]
          by_cases h2 : d.mode = "000000"
          · rw [if_pos h2]; exact h
          · rw [if_neg h2, alookup_append, h]
            simp [alookup, hp, Option.orElse]
      rw [ih _ hlook, List.find?_cons_of_neg _ (by simp [hp])]

theorem build_fold_some (recs : List RunRecord)
    (db : List (String × PathDbEntry)) (p : String) (e : PathDbEntry)
    (h : alookup p db = some e) :
    alookup p (recs.foldl
      (fun db rec =>
        rec.diff.foldl (fun db d => addDiffEntry db rec.gitshasum d) db)
      db) = some e := by
  induction recs generalizing db with
  | nil => exact h
  | cons r rest ih =>
    exact ih _ (foldDiff_lookup_some r.diff r.gitshasum db p e h)

theorem build_fold_none (recs : List RunRecord)
    (db : List (String × PathDbEntry)) (p : String)
    (h : alookup p db = none) :
    alookup p (recs.foldl
      (fun db rec =>
        rec.diff.foldl (fun db d => addDiffEntry db rec.gitshasum d) db)
      db) = generatingEntry recs p := by
  induction recs generalizing db with
  | nil => simpa [generatingEntry] using h
  | cons r rest ih =>
    show alookup p (rest.foldl _
      (r.diff.foldl (fun db d => addDiffEntry db r.gitshasum d) db)) = _
    cases hf : r.diff.find? (fun d => d.path = p && d.mode ≠ "000000") with
    | none =>
      have hz : alookup p
          (r.diff.foldl (fun db d => addDiffEntry db r.gitshasum d) db) =
          none := by
        rw [foldDiff_lookup_none _ _ _ _ h, hf]; rfl
      rw [ih _ hz]
      simp only [generatingEntry, hf]
    | some d =>
      have hz : alookup p
          (r.diff.foldl (fun db d => addDiffEntry db r.gitshasum d) db) =
          some ⟨r.gitshasum, d.gitshasum⟩ := by
        rw [foldDiff_lookup_none _ _ _ _ h, hf]; rfl
      rw [build_fold_some rest _ _ _ hz]
      simp only [generatingEntry, hf]

/-- C10: the `path_db` maps every path to at most one generating
activity, namely the most recent run record (records are scanned
latest first) whose diff touches the path with a mode other than
`000000` — deletion entries never create or overwrite a mapping
(first conjunct); and a file-level provenance result is emitted for a
status entry only when the mapped diff's gitshasum equals the entry's
current gitshasum, naming the mapped activity (second conjunct). -/
theorem C10_runprov :
    (∀ (recs : List RunRecord) (p : String),
      alookup p (build_path_db recs) = generatingEntry recs p) ∧
    (∀ (recs : List RunRecord) (status : List StatusEntry)
        (process_type : String) (res : FileProvResult),
      res ∈ runprov_file_results recs status process_type →
      ∃ dbrec e, alookup res.path (build_path_db recs) = some dbrec ∧
        e ∈ status ∧ e.path = res.path ∧ e.type = res.type ∧
        dbrec.gitshasum = e.gitshasum ∧ res.activity = dbrec.activity) := by
  constructor
  · intro recs p
    exact build_fold_none recs [] p rfl
  · intro recs status process_type res hr
    unfold runprov_file_results at hr
    split at hr
    · rw [List.mem_filterMap] at hr
      obtain ⟨e, he, hfe⟩ := hr
      split at hfe
      · rename_i dbrec heq
        split at hfe
        · injection hfe with hfe
          subst hfe
          rename_i hsha
          exact ⟨dbrec, e, heq, he, rfl, rfl, hsha, rfl⟩
        · exact absurd hfe (by simp)
      · exact absurd hfe (by simp)
    · simp at hr

/-- C10 witness: with a latest record that deletes `f.txt` and an
earlier record that created it with gitshasum `h1`, the path maps to
the earlier activity, and the status entry at gitshasum `h1` yields a
result naming it. -/
theorem C10_witness :
    (alookup "f.txt" (build_path_db recs10) = generatingEntry recs10 "f.txt") ∧
    (∃ dbrec e, alookup "f.txt" (build_path_db recs10) = some dbrec ∧
      e ∈ status10 ∧ e.path = "f.txt" ∧ e.type = "file" ∧
      dbrec.gitshasum = e.gitshasum ∧ "act1" = dbrec.activity) :=
  ⟨C10_runprov.1 recs10 "f.txt",
   C10_runprov.2 recs10 status10 "content" ⟨"f.txt", "file", "act1"⟩
     (by decide)⟩

end Metalad
